import Mathlib

set_option maxRecDepth 4000
set_option maxHeartbeats 1000000

/-!
Verification of the `.res` version-bumper (src/src/version_bumper.py).

A `.res` file is modelled as a `Buffer`, a list of byte values.  Python's
`struct.unpack_from('<H', ...)` / `struct.pack_into('<H', ...)` are modelled by
`readU16` / `pack_into?`; a `struct.error` exception is the `BumpError.outOfRange`
value of the `Except` monad.  `bytes.find` is `findSub` / `findSubFrom`.
Functions that print an error message and `return False` without raising are
modelled as returning `.ok (some err, buffer)`; a raised exception is `.error e`
(it aborts the whole session); `.ok (none, buffer)` is `return True`.
-/

abbrev Buffer := List Nat

instance {ε α : Type} [DecidableEq ε] [DecidableEq α] : DecidableEq (Except ε α) := fun a b =>
  match a, b with
  | .error e1, .error e2 =>
    if h : e1 = e2 then isTrue (by rw [h]) else isFalse (by intro hc; cases hc; exact h rfl)
  | .ok v1, .ok v2 =>
    if h : v1 = v2 then isTrue (by rw [h]) else isFalse (by intro hc; cases hc; exact h rfl)
  | .error _, .ok _ => isFalse (by intro hc; cases hc)
  | .ok _, .error _ => isFalse (by intro hc; cases hc)

/-- Version structure Major.Minor.Build.Release (class VersionInfo, lines 66-88). -/
structure VersionInfo where
  major : Nat
  minor : Nat
  build : Nat
  release : Nat
deriving DecidableEq, Repr

/-- Failure modes of the patch session.  `outOfRange` doubles as Python's
`struct.error` (raised both for a 16-bit value out of range and for an
out-of-bounds pack/unpack offset); `buildPosNotFound` is the
"无法定位 Build 字符串位置" failure of the string patchers. -/
inductive BumpError where
  | signatureNotFound
  | markerNotFound
  | malformedVersion
  | outOfRange
  | buildPosNotFound
deriving DecidableEq, Repr

/-- Little-endian 16-bit read at offset `i` (struct.unpack_from('<H', data, i)). -/
def readU16 (d : Buffer) (i : Nat) : Nat :=
  d.getD i 0 + 256 * d.getD (i + 1) 0

/-- Little-endian 16-bit write at offset `i` (struct.pack_into('<H', data, i, v)),
assuming `v < 65536` and the offset in bounds (checked by `pack_into?`). -/
def writeU16 (d : Buffer) (i : Nat) (v : Nat) : Buffer :=
  (d.set i (v % 256)).set (i + 1) (v / 256 % 256)

/-- struct.pack_into('<H', data, i, v): raises struct.error when the value does
not fit in 16 bits or the two bytes do not fit in the buffer. -/
def pack_into? (d : Buffer) (i : Nat) (v : Int) : Except BumpError Buffer :=
  if 0 ≤ v ∧ v ≤ 65535 ∧ i + 2 ≤ d.length then .ok (writeU16 d i v.toNat)
  else .error .outOfRange

/-- Python's negative-offset convention for struct offsets: a negative offset
counts from the end of the buffer. -/
def pyOff (len : Nat) (i : Int) : Int :=
  if i < 0 then i + len else i

/-- struct.unpack_from('<H', data, i). -/
def unpack_from? (d : Buffer) (i : Int) : Except BumpError Nat :=
  if 0 ≤ pyOff d.length i ∧ pyOff d.length i + 2 ≤ (d.length : Int) then
    .ok (readU16 d (pyOff d.length i).toNat)
  else .error .outOfRange

/-- struct.unpack_from('<I', data, i): only the bounds check matters here
(the value is only printed by the tool). -/
def unpack_u32_from? (d : Buffer) (i : Int) : Except BumpError Nat :=
  if 0 ≤ pyOff d.length i ∧ pyOff d.length i + 4 ≤ (d.length : Int) then
    .ok (readU16 d (pyOff d.length i).toNat + 65536 * readU16 d ((pyOff d.length i).toNat + 2))
  else .error .outOfRange

/-- First index at which `pat` occurs as a contiguous sublist (bytes.find). -/
def findSub (pat : Buffer) : Buffer → Option Nat
  | [] => if pat.isPrefixOf ([] : Buffer) then some 0 else none
  | b :: rest =>
    if pat.isPrefixOf (b :: rest) then some 0
    else (findSub pat rest).map (fun n => n + 1)

/-- bytes.find(pat, pos): first occurrence at index ≥ pos. -/
def findSubFrom (pat : Buffer) (d : Buffer) (pos : Nat) : Option Nat :=
  (findSub pat (d.drop pos)).map (fun n => n + pos)

/-- UTF-16-LE encoding of a list of code units (str.encode('utf-16-le') for
BMP text: two bytes per unit, low byte first). -/
def utf16le : List Nat → Buffer
  | [] => []
  | c :: cs => c % 256 :: c / 256 % 256 :: utf16le cs

/-- Decimal digit character codes of a natural number (Python str(n)). -/
def natDigits (n : Nat) : List Nat :=
  (Nat.toDigits 10 n).map Char.toNat

/-- Character codes of "Major.Minor.Build.Release" (VersionInfo.__str__). -/
def versionCodes (v : VersionInfo) : List Nat :=
  natDigits v.major ++ 46 :: (natDigits v.minor ++ 46 :: (natDigits v.build ++ 46 :: natDigits v.release))

/-- Character codes of the marker string "FileVersion". -/
def fileVersionCodes : List Nat :=
  [70, 105, 108, 101, 86, 101, 114, 115, 105, 111, 110]

/-- Python str.split('.') on a list of character codes. -/
def splitOnDot : List Nat → List (List Nat)
  | [] => [[]]
  | c :: rest =>
    if c = 46 then [] :: splitOnDot rest
    else
      match splitOnDot rest with
      | [] => [[c]]
      | g :: gs => (c :: g) :: gs

/-- Python int() on a string of character codes, modelled for plain
non-empty digit strings (the only shape version components take). -/
def parseNatCodes? (cs : List Nat) : Option Nat :=
  if cs ≠ [] ∧ cs.all (fun c => 48 ≤ c ∧ c ≤ 57) then
    some (cs.foldl (fun a c => a * 10 + (c - 48)) 0)
  else none

/-- VersionInfo.from_string (lines 77-88): exactly four dot-separated integers. -/
def VersionInfo.fromCodes? (cs : List Nat) : Option VersionInfo :=
  match splitOnDot cs with
  | [a, b, c, r] =>
    match parseNatCodes? a, parseNatCodes? b, parseNatCodes? c, parseNatCodes? r with
    | some ma, some mi, some bu, some re => some ⟨ma, mi, bu, re⟩
    | _, _, _, _ => none
  | _ => none

/-- VS_FIXEDFILEINFO signature bytes 0xFEEF04BD little-endian (line 216). -/
def VS_FFI_SIGNATURE : Buffer := [0xBD, 0x04, 0xEF, 0xFE]

/-- find_binary_version (lines 246-287): locate the signature, compute
file_version_ls_offset = pos + 12, and perform the two 32-bit reads the
source does (they can raise struct.error on a truncated buffer). -/
def find_binary_version (d : Buffer) : Except BumpError Nat :=
  match findSub VS_FFI_SIGNATURE d with
  | none => .error .signatureNotFound
  | some pos =>
    match unpack_u32_from? d ((pos : Int) + 8) with
    | .error e => .error e
    | .ok _ =>
      match unpack_u32_from? d ((pos : Int) + 12) with
      | .error e => .error e
      | .ok _ => .ok (pos + 12)

/-- Skip zero padding bytes: `while i < len and data[i] == 0: i += 1`
(lines 303-304).  Structural recursion on a fuel that exceeds the maximal
number of loop iterations (the index grows by one per step and stops at the
buffer length), so the fueled function agrees with the loop. -/
def skipZerosAux (d : Buffer) : Nat → Nat → Nat
  | 0, i => i
  | fuel + 1, i =>
    if i < d.length then
      if d.getD i 0 = 0 then skipZerosAux d fuel (i + 1) else i
    else i

def skipZeros (d : Buffer) (i : Nat) : Nat :=
  skipZerosAux d (d.length + 1) i

/-- Read the zero-terminated UTF-16 run: `while i < len - 1: c = u16(i); if c == 0: break`
(lines 309-317).  Fueled like skipZeros (the index grows by two per step). -/
def readU16StringAux (d : Buffer) : Nat → Nat → List Nat
  | 0, _ => []
  | fuel + 1, i =>
    if i + 1 < d.length then
      if readU16 d i = 0 then [] else readU16 d i :: readU16StringAux d fuel (i + 2)
    else []

def readU16String (d : Buffer) (i : Nat) : List Nat :=
  readU16StringAux d (d.length + 1) i

/-- find_string_version (lines 289-328): locate the "FileVersion" marker, skip
its terminator and padding, and parse the following UTF-16 version string.
Returns (file_version_string_offset, current_version). -/
def find_string_version (d : Buffer) : Except BumpError (Nat × VersionInfo) :=
  match findSub (utf16le fileVersionCodes) d with
  | none => .error .markerNotFound
  | some pos =>
    let searchStart := skipZeros d (pos + 22 + 2)
    match VersionInfo.fromCodes? (readU16String d searchStart) with
    | none => .error .malformedVersion
    | some v => .ok (searchStart, v)

/-- analyze (lines 330-338), minus file loading: binary location then string location. -/
def analyze (d : Buffer) : Except BumpError (Nat × Nat × VersionInfo) :=
  match find_binary_version d with
  | .error e => .error e
  | .ok fvls =>
    match find_string_version d with
    | .error e => .error e
    | .ok (fvs, cur) => .ok (fvls, fvs, cur)

/-- calculate_new_version (lines 340-355): only the build field is replaced;
None means auto-increment. -/
def calculate_new_version (cur : VersionInfo) (newBuild : Option Nat) : VersionInfo :=
  { cur with build := newBuild.getD (cur.build + 1) }

/-- update_binary_version (lines 357-387): read then overwrite the 16-bit build
half-word at file_version_ls_offset + 2. -/
def update_binary_version (d : Buffer) (fvls : Nat) (newBuild : Nat) : Except BumpError Buffer :=
  match unpack_from? d ((fvls : Int) + 2) with
  | .error e => .error e
  | .ok _ => pack_into? d (fvls + 2) (newBuild : Int)

/-- Scan for the build substring: count dots from the version start, the build
begins right after the second dot (lines 413-427 and 478-492).  Fueled
structural recursion; `d.length + 1` fuel always outlasts the loop. -/
def findBuildOffsetAux (d : Buffer) : Nat → Nat → Nat → Option Nat
  | 0, _, _ => none
  | fuel + 1, i, dotCount =>
    if i + 1 < d.length then
      if readU16 d i = 0 then none
      else if readU16 d i = 46 then
        if dotCount + 1 = 2 then some (i + 2)
        else findBuildOffsetAux d fuel (i + 2) (dotCount + 1)
      else findBuildOffsetAux d fuel (i + 2) dotCount
    else none

def findBuildOffset (d : Buffer) (i : Nat) (dotCount : Nat) : Option Nat :=
  findBuildOffsetAux d (d.length + 1) i dotCount

/-- End of the build digit run: next dot or NUL (lines 495-500). -/
def findBuildEndAux (d : Buffer) : Nat → Nat → Nat
  | 0, i => i
  | fuel + 1, i =>
    if i + 1 < d.length then
      if readU16 d i = 46 ∨ readU16 d i = 0 then i else findBuildEndAux d fuel (i + 2)
    else i

def findBuildEnd (d : Buffer) (i : Nat) : Nat :=
  findBuildEndAux d (d.length + 1) i

/-- Write one UTF-16 unit per character with pack_into (lines 430-431). -/
def writeChars? (d : Buffer) (off : Nat) : List Nat → Except BumpError Buffer
  | [] => .ok d
  | c :: cs =>
    match pack_into? d off (c : Int) with
    | .error e => .error e
    | .ok d1 => writeChars? d1 (off + 2) cs

/-- Overwrite `bs` byte by byte starting at `p` (lines 639-640). -/
def writeBytesAt (d : Buffer) (p : Nat) : Buffer → Buffer
  | [] => d
  | b :: bs => writeBytesAt (d.set p b) (p + 1) bs

/-- The interleaved find-and-overwrite loop of _update_all_version_strings
(lines 631-643).  The fuel `d.length + 1` is an upper bound on the number of
iterations: every successful find advances `pos` by at least one and matches
are confined to the (length-invariant) buffer. -/
def replaceLoop (pat newPat : Buffer) : Nat → Buffer → Nat → Buffer
  | 0, d, _ => d
  | fuel + 1, d, pos =>
    match findSubFrom pat d pos with
    | none => d
    | some p => replaceLoop pat newPat fuel (writeBytesAt d p newPat) (p + pat.length)

/-- _update_all_version_strings (lines 625-646): replace every delimited
".oldBuild." occurrence by ".newBuild." in place (same length). -/
def _update_all_version_strings (d : Buffer) (oldB newB : List Nat) : Buffer :=
  replaceLoop (utf16le (46 :: (oldB ++ [46]))) (utf16le (46 :: (newB ++ [46]))) (d.length + 1) d 0

/-- _update_string_version_same_length (lines 406-444): locate the build run,
overwrite it character by character, then run the global same-length sweep. -/
def _update_string_version_same_length (d : Buffer) (fvs : Nat) (oldB newB : List Nat) :
    Except BumpError (Option BumpError × Buffer) :=
  match findBuildOffset d fvs 0 with
  | none => .ok (some .buildPosNotFound, d)
  | some bso =>
    match writeChars? d bso newB with
    | .error e => .error e
    | .ok d1 => .ok (none, _update_all_version_strings d1 oldB newB)

/-- Round `byte_diff` up to a multiple of 4: ((byte_diff + 3) // 4) * 4 with
Python floor division (line 454). -/
def alignUp4 (x : Int) : Int := ((x + 3).fdiv 4) * 4

/-- byte_diff = len_diff * 2 (line 449), as the source computes it from the
decimal digit strings of the two builds. -/
def byteDelta (cur nv : VersionInfo) : Int :=
  2 * (((natDigits nv.build).length : Int) - ((natDigits cur.build).length : Int))

/-- Clamp an index the way Python slicing does (negative counts from the end,
out-of-range is clipped). -/
def pyClamp (len : Nat) (i : Int) : Nat :=
  if i < 0 then (if i + len < 0 then 0 else (i + len).toNat)
  else (if i > len then len else i.toNat)

/-- data[:i] + ins + data[i:] with Python slice semantics (lines 535, 671). -/
def pyInsert (d ins : Buffer) (i : Int) : Buffer :=
  d.take (pyClamp d.length i) ++ ins ++ d.drop (pyClamp d.length i)

/-- Step 6 of the resizing patch (lines 510-511): replace the build span with
the new build's UTF-16 bytes by slice concatenation. -/
def usvdlSplice (d : Buffer) (bso beo : Nat) (newB : List Nat) : Buffer :=
  d.take bso ++ utf16le newB ++ d.drop beo

/-- Step 7 of the resizing patch (lines 521-535): insert the alignment padding
zeros after the (shifted) end of the FileVersion entry when needed. -/
def usvdlPad (d1 : Buffer) (fvEntryEnd byteD alignD : Int) : Buffer :=
  if alignD - byteD > 0 then
    pyInsert d1 (List.replicate (alignD - byteD).toNat 0) (fvEntryEnd + byteD)
  else d1

/-- One block of _update_length_fields (e.g. lines 553-564): if the fixed
offset is inside the buffer, read the 16-bit field and re-pack it incremented
by `δ`; otherwise silently do nothing. -/
def updLenField (d : Buffer) (off : Nat) (δ : Int) : Except BumpError Buffer :=
  if off < d.length - 2 then pack_into? d off ((readU16 d off : Int) + δ)
  else .ok d

/-- _update_length_fields (lines 545-623): fixed absolute offsets 0x0020 and
0x0040 (resource DataSize), 0x009C (StringFileInfo wLength) and 0x00C0
(StringTable wLength) get the aligned delta; 0x015C (FileVersion wLength) gets
the byte delta and 0x015E (wValueLength) the character delta byte_diff // 2.
The fv_entry_offset parameter is unused, exactly as in the source. -/
def _update_length_fields (d : Buffer) (byteD alignD : Int) (fvEntryOffset : Int) :
    Except BumpError Buffer :=
  match updLenField d 0x20 alignD with
  | .error e => .error e
  | .ok d1 =>
    match updLenField d1 0x40 alignD with
    | .error e => .error e
    | .ok d2 =>
      match updLenField d2 0x9C alignD with
      | .error e => .error e
      | .ok d3 =>
        match updLenField d3 0xC0 alignD with
        | .error e => .error e
        | .ok d4 =>
          match updLenField d4 0x15C byteD with
          | .error e => .error e
          | .ok d5 => updLenField d5 0x15E (byteD.fdiv 2)

/-- Collect the successive match positions of `pat` (lines 660-667): find from
`pos`, record, continue from the match end.  Fuel `d.length + 1` bounds the
iteration count since each success advances `pos` by `pat.length ≥ 1`. -/
def findAllAux (d pat : Buffer) : Nat → Nat → List Nat
  | 0, _ => []
  | fuel + 1, pos =>
    match findSubFrom pat d pos with
    | none => []
    | some p => p :: findAllAux d pat fuel (p + pat.length)

def findAllPositions (d pat : Buffer) : List Nat :=
  findAllAux d pat (d.length + 1) 0

/-- _update_all_version_strings_with_length_change (lines 648-674): search the
full old version string, then splice in the new one at every collected
position except the first, in descending order. -/
def _update_all_version_strings_with_length_change (d : Buffer) (cur nv : VersionInfo) : Buffer :=
  let oldPat := utf16le (versionCodes cur)
  let newPat := utf16le (versionCodes nv)
  let ps := findAllPositions d oldPat
  ((ps.drop 1).reverse).foldl
    (fun acc p => acc.take p ++ newPat ++ acc.drop (p + oldPat.length)) d

/-- _update_string_version_diff_length (lines 446-543): re-find the marker,
read the entry's declared lengths, locate the build span, splice in the new
digits, insert alignment padding, update the length fields, then run the
full-string sweep. -/
def _update_string_version_diff_length (d : Buffer) (fvs : Nat) (cur nv : VersionInfo) :
    Except BumpError (Option BumpError × Buffer) :=
  let newB := natDigits nv.build
  let byteD := byteDelta cur nv
  let alignD := alignUp4 byteD
  match findSub (utf16le fileVersionCodes) d with
  | none => .ok (some .markerNotFound, d)
  | some fvKeyPos =>
    let fvEntryOffset : Int := (fvKeyPos : Int) - 6
    match unpack_from? d fvEntryOffset with
    | .error e => .error e
    | .ok fvWLength =>
      match unpack_from? d (fvEntryOffset + 2) with
      | .error e => .error e
      | .ok _fvWValueLength =>
        match findBuildOffset d fvs 0 with
        | none => .ok (some .buildPosNotFound, d)
        | some bso =>
          let beo := findBuildEnd d bso
          let fvEntryEnd : Int := fvEntryOffset + (fvWLength : Int)
          let d1 := usvdlSplice d bso beo newB
          let d2 := usvdlPad d1 fvEntryEnd byteD alignD
          match _update_length_fields d2 byteD alignD fvEntryOffset with
          | .error e => .error e
          | .ok d3 => .ok (none, _update_all_version_strings_with_length_change d3 cur nv)

/-- update_string_version (lines 389-404): dispatch on the digit count of the
old and new build. -/
def update_string_version (d : Buffer) (fvs : Nat) (cur nv : VersionInfo) :
    Except BumpError (Option BumpError × Buffer) :=
  let oldB := natDigits cur.build
  let newB := natDigits nv.build
  if newB.length = oldB.length then
    _update_string_version_same_length d fvs oldB newB
  else
    _update_string_version_diff_length d fvs cur nv

/-- ResVersionBumper.bump (lines 697-749), producing the buffer handed to
save().  An analysis failure or a raised exception returns `.error e` — save is
never reached.  The boolean result of update_string_version is discarded,
exactly as in the source (line 732). -/
def bump (d : Buffer) (newBuild : Option Nat) : Except BumpError Buffer :=
  match analyze d with
  | .error e => .error e
  | .ok (fvls, fvs, cur) =>
    let nv := calculate_new_version cur newBuild
    match update_binary_version d fvls nv.build with
    | .error e => .error e
    | .ok d1 =>
      match update_string_version d1 fvs cur nv with
      | .error e => .error e
      | .ok r => .ok r.2

/-- Extract the buffer of a successful session (for closed statements). -/
def okOr (e : Except BumpError Buffer) : Buffer :=
  match e with
  | .ok b => b
  | .error _ => []

/-- Extract the buffer of a string-patch result (for closed statements). -/
def okBuf (e : Except BumpError (Option BumpError × Buffer)) : Buffer :=
  match e with
  | .ok r => r.2
  | .error _ => []

def zeros (n : Nat) : Buffer := List.replicate n 0

def v190 : VersionInfo := ⟨1, 1, 9, 0⟩

def v1_10 : VersionInfo := ⟨1, 1, 10, 0⟩

/-- A minimal well-formed resource image: VS_FIXEDFILEINFO at 0 (build 9 in the
high half of FileVersionLS at offset 14), the FileVersion string entry header
at 16 (wLength 48, wValueLength 8, wType 1), the marker at 22, and the UTF-16
value "1.1.9.0" at 48, NUL-terminated at 62; 64 bytes in total. -/
def smallBuf : Buffer :=
  VS_FFI_SIGNATURE ++ zeros 4 ++ [1, 0, 1, 0] ++ [0, 0, 9, 0]
    ++ [48, 0] ++ [8, 0] ++ [1, 0]
    ++ utf16le fileVersionCodes ++ [0, 0] ++ [0, 0]
    ++ utf16le (versionCodes v190) ++ [0, 0]

/-- The six fixed field offsets _update_length_fields writes to. -/
def fieldOffsets : List Nat := [0x20, 0x40, 0x9C, 0xC0, 0x15C, 0x15E]

/-- All byte positions the six 16-bit field writes can touch. -/
def fieldBytes : List Nat :=
  [0x20, 0x21, 0x40, 0x41, 0x9C, 0x9D, 0xC0, 0xC1, 0x15C, 0x15D, 0x15E, 0x15F]

/-- Precondition for one length-field update: if the fixed offset is inside
the buffer, the incremented value still fits in an unsigned 16-bit field. -/
def fieldOk (d : Buffer) (off : Nat) (δ : Int) : Prop :=
  off < d.length - 2 → 0 ≤ (readU16 d off : Int) + δ ∧ (readU16 d off : Int) + δ ≤ 65535

/-- Postcondition of one length-field update: incremented when the offset is
inside the buffer, untouched (silently skipped) otherwise. -/
def fieldResult (d d' : Buffer) (off : Nat) (δ : Int) : Prop :=
  (off < d.length - 2 → (readU16 d' off : Int) = (readU16 d off : Int) + δ) ∧
  (¬ off < d.length - 2 → readU16 d' off = readU16 d off)

/-- smallBuf followed by two extra embedded copies of the full version string,
at offsets 72 and 88. -/
def c1buf : Buffer :=
  smallBuf ++ zeros 8 ++ utf16le (versionCodes v190) ++ [0, 0]
    ++ utf16le (versionCodes v190) ++ [0, 0]

/-- smallBuf followed by one extra embedded copy of the full version string at 72. -/
def c4buf : Buffer :=
  smallBuf ++ zeros 8 ++ utf16le (versionCodes v190) ++ [0, 0]

/-- smallBuf followed by the unrelated text "2.9.3", which contains the
delimited pattern ".9.". -/
def c5buf : Buffer :=
  smallBuf ++ utf16le [50, 46, 57, 46, 51] ++ [0, 0]

/-- A buffer where the (sole) "FileVersion" marker overlaps the binary build
half-word: signature at 0, marker at 4, version text at 28.  The binary patch
at offset 14 destroys the marker. -/
def c6buf : Buffer :=
  VS_FFI_SIGNATURE ++ utf16le fileVersionCodes ++ [0, 0]
    ++ utf16le (versionCodes v190) ++ [0, 0]

/-- A realistically laid out resource image of 396 = 0x18C bytes: block size
fields at 0x20 and 0x40, StringFileInfo length at 0x9C, StringTable length at
0xC0 (all 0x100), VS_FIXEDFILEINFO at 0x44 (build 9 at 0x52), the FileVersion
entry header at its expected 0x15C (wLength 48, wValueLength 8, wType 1),
marker at 0x162 and value "1.1.9.0" at 0x17C. -/
def resBufC3 : Buffer :=
  zeros 0x20 ++ [0, 1] ++ zeros 0x1E ++ [0, 1] ++ zeros 2
    ++ VS_FFI_SIGNATURE ++ zeros 4 ++ [1, 0, 1, 0] ++ [0, 0, 9, 0]
    ++ zeros 0x48 ++ [0, 1] ++ zeros 0x22 ++ [0, 1] ++ zeros 0x9A
    ++ [48, 0] ++ [8, 0] ++ [1, 0]
    ++ utf16le fileVersionCodes ++ [0, 0] ++ [0, 0]
    ++ utf16le (versionCodes v190) ++ [0, 0]

/-- The spliced-and-padded intermediate buffer of the 9→10 resizing patch on
smallBuf (exactly the buffer _update_length_fields receives there). -/
def c1witnessPadded : Buffer :=
  usvdlPad (usvdlSplice smallBuf 56 (findBuildEnd smallBuf 56) (natDigits v1_10.build))
    (((22 : Nat) : Int) - 6 + ((48 : Nat) : Int)) (byteDelta v190 v1_10)
    (alignUp4 (byteDelta v190 v1_10))

/-- The corresponding length-field update output. -/
def c1witnessD3 : Buffer :=
  okOr (_update_length_fields c1witnessPadded (byteDelta v190 v1_10)
    (alignUp4 (byteDelta v190 v1_10)) (((22 : Nat) : Int) - 6))

/-! ### Basic lemmas about the byte-level operations -/

theorem getD_set_ne (l : List Nat) (i j a : Nat) (h : i ≠ j) :
    (l.set i a).getD j 0 = l.getD j 0 := by
  simp [List.getD_eq_getElem?_getD, List.getElem?_set_ne h]

theorem getD_set_self (l : List Nat) (i a : Nat) (h : i < l.length) :
    (l.set i a).getD i 0 = a := by
  simp [List.getD_eq_getElem?_getD, List.getElem?_set_eq h]

theorem length_writeU16 (d : Buffer) (i v : Nat) : (writeU16 d i v).length = d.length := by
  simp [writeU16]

theorem getD_writeU16_ne (d : Buffer) (i v j : Nat) (h1 : j ≠ i) (h2 : j ≠ i + 1) :
    (writeU16 d i v).getD j 0 = d.getD j 0 := by
  unfold writeU16
  rw [getD_set_ne _ _ _ _ (fun hc => h2 hc.symm), getD_set_ne _ _ _ _ (fun hc => h1 hc.symm)]

theorem readU16_congr {d' d : Buffer} {off : Nat}
    (h1 : d'.getD off 0 = d.getD off 0) (h2 : d'.getD (off + 1) 0 = d.getD (off + 1) 0) :
    readU16 d' off = readU16 d off := by
  unfold readU16; rw [h1, h2]

theorem readU16_writeU16_self (d : Buffer) (i v : Nat) (hb : i + 2 ≤ d.length) (hv : v < 65536) :
    readU16 (writeU16 d i v) i = v := by
  unfold readU16 writeU16
  rw [getD_set_ne _ _ _ _ (by omega), getD_set_self _ _ _ (by omega),
    getD_set_self _ _ _ (by simp; omega)]
  omega

theorem readU16_writeU16_ne (d : Buffer) (i v j : Nat) (h : j + 2 ≤ i ∨ i + 2 ≤ j) :
    readU16 (writeU16 d i v) j = readU16 d j :=
  readU16_congr (getD_writeU16_ne _ _ _ _ (by omega) (by omega))
    (getD_writeU16_ne _ _ _ _ (by omega) (by omega))

theorem pack_into_ok (d : Buffer) (i : Nat) (v : Int)
    (h0 : 0 ≤ v) (h1 : v ≤ 65535) (h2 : i + 2 ≤ d.length) :
    pack_into? d i v = .ok (writeU16 d i v.toNat) := by
  simp [pack_into?, h0, h1, h2]

theorem alignUp4_ge (x : Int) : x ≤ alignUp4 x := by
  unfold alignUp4
  have h1 := Int.fdiv_add_fmod (x + 3) 4
  rw [Int.fmod_eq_emod _ (by norm_num)] at h1
  have h2 : 0 ≤ (x + 3) % 4 := Int.emod_nonneg _ (by norm_num)
  have h3 : (x + 3) % 4 < 4 := Int.emod_lt_of_pos _ (by norm_num)
  omega

theorem length_utf16le (cs : List Nat) : (utf16le cs).length = 2 * cs.length := by
  induction cs with
  | nil => rfl
  | cons c cs ih => simp [utf16le, ih]; omega

theorem pyClamp_le (len : Nat) (i : Int) : pyClamp len i ≤ len := by
  unfold pyClamp
  split <;> split <;> omega

theorem length_pyInsert (d ins : Buffer) (i : Int) :
    (pyInsert d ins i).length = d.length + ins.length := by
  unfold pyInsert
  have h := pyClamp_le d.length i
  simp [List.length_take, List.length_drop]
  omega

theorem length_usvdlSplice (d : Buffer) (bso beo : Nat) (newB : List Nat)
    (h1 : bso ≤ d.length) :
    (usvdlSplice d bso beo newB).length = bso + 2 * newB.length + (d.length - beo) := by
  unfold usvdlSplice
  simp [List.length_take, List.length_drop, length_utf16le]
  omega

/-! ### The length-field updater -/

theorem updLenField_spec (d : Buffer) (off : Nat) (δ : Int) (h : fieldOk d off δ) :
    ∃ d', updLenField d off δ = .ok d' ∧ d'.length = d.length ∧
      (∀ j, j ≠ off → j ≠ off + 1 → d'.getD j 0 = d.getD j 0) ∧
      (¬ off < d.length - 2 → d' = d) ∧
      (off < d.length - 2 → (readU16 d' off : Int) = (readU16 d off : Int) + δ) := by
  by_cases hoff : off < d.length - 2
  · obtain ⟨h0, h1⟩ := h hoff
    have hb : off + 2 ≤ d.length := by omega
    refine ⟨writeU16 d off ((readU16 d off : Int) + δ).toNat, ?_, ?_, ?_, ?_, ?_⟩
    · unfold updLenField
      rw [if_pos hoff, pack_into_ok d off _ h0 h1 hb]
    · exact length_writeU16 _ _ _
    · intro j hj1 hj2; exact getD_writeU16_ne _ _ _ _ hj1 hj2
    · intro hc; exact absurd hoff hc
    · intro _
      rw [readU16_writeU16_self d off _ hb (by omega)]
      omega
  · refine ⟨d, ?_, rfl, fun _ _ _ => rfl, fun _ => rfl, fun hc => absurd hc hoff⟩
    unfold updLenField
    rw [if_neg hoff]

theorem updLenField_length {d : Buffer} {off : Nat} {δ : Int} {d' : Buffer}
    (h : updLenField d off δ = .ok d') : d'.length = d.length := by
  unfold updLenField at h
  split at h
  · unfold pack_into? at h
    split at h
    · cases h; exact length_writeU16 _ _ _
    · cases h
  · cases h; rfl

theorem update_length_fields_length {d : Buffer} {bd ad fv : Int} {d' : Buffer}
    (h : _update_length_fields d bd ad fv = .ok d') : d'.length = d.length := by
  unfold _update_length_fields at h
  split at h
  · cases h
  case _ d1 h1 =>
  split at h
  · cases h
  case _ d2 h2 =>
  split at h
  · cases h
  case _ d3 h3 =>
  split at h
  · cases h
  case _ d4 h4 =>
  split at h
  · cases h
  case _ d5 h5 =>
  rw [updLenField_length h, updLenField_length h5, updLenField_length h4,
    updLenField_length h3, updLenField_length h2, updLenField_length h1]

theorem update_length_fields_spec (d : Buffer) (bd ad fv : Int)
    (h20 : fieldOk d 0x20 ad) (h40 : fieldOk d 0x40 ad) (h9C : fieldOk d 0x9C ad)
    (hC0 : fieldOk d 0xC0 ad) (h15C : fieldOk d 0x15C bd) (h15E : fieldOk d 0x15E (bd.fdiv 2)) :
    ∃ d', _update_length_fields d bd ad fv = .ok d' ∧ d'.length = d.length ∧
      (∀ j, j ∉ fieldBytes → d'.getD j 0 = d.getD j 0) ∧
      fieldResult d d' 0x20 ad ∧ fieldResult d d' 0x40 ad ∧ fieldResult d d' 0x9C ad ∧
      fieldResult d d' 0xC0 ad ∧ fieldResult d d' 0x15C bd ∧
      fieldResult d d' 0x15E (bd.fdiv 2) := by
  obtain ⟨e1, r1, l1, f1, s1, w1⟩ := updLenField_spec d 32 ad h20
  have t2 : readU16 e1 64 = readU16 d 64 :=
    readU16_congr (f1 64 (by omega) (by omega)) (f1 65 (by omega) (by omega))
  have g2 : fieldOk e1 64 ad := by
    unfold fieldOk at h40 ⊢; rw [l1, t2]; exact h40
  obtain ⟨e2, r2, l2, f2, s2, w2⟩ := updLenField_spec e1 64 ad g2
  have l2d : e2.length = d.length := l2.trans l1
  have t3 : readU16 e2 156 = readU16 d 156 :=
    (readU16_congr (f2 156 (by omega) (by omega)) (f2 157 (by omega) (by omega))).trans
      (readU16_congr (f1 156 (by omega) (by omega)) (f1 157 (by omega) (by omega)))
  have g3 : fieldOk e2 156 ad := by
    unfold fieldOk at h9C ⊢; rw [l2d, t3]; exact h9C
  obtain ⟨e3, r3, l3, f3, s3, w3⟩ := updLenField_spec e2 156 ad g3
  have l3d : e3.length = d.length := l3.trans l2d
  have t4 : readU16 e3 192 = readU16 d 192 :=
    ((readU16_congr (f3 192 (by omega) (by omega)) (f3 193 (by omega) (by omega))).trans
      (readU16_congr (f2 192 (by omega) (by omega)) (f2 193 (by omega) (by omega)))).trans
      (readU16_congr (f1 192 (by omega) (by omega)) (f1 193 (by omega) (by omega)))
  have g4 : fieldOk e3 192 ad := by
    unfold fieldOk at hC0 ⊢; rw [l3d, t4]; exact hC0
  obtain ⟨e4, r4, l4, f4, s4, w4⟩ := updLenField_spec e3 192 ad g4
  have l4d : e4.length = d.length := l4.trans l3d
  have t5 : readU16 e4 348 = readU16 d 348 :=
    (((readU16_congr (f4 348 (by omega) (by omega)) (f4 349 (by omega) (by omega))).trans
      (readU16_congr (f3 348 (by omega) (by omega)) (f3 349 (by omega) (by omega)))).trans
      (readU16_congr (f2 348 (by omega) (by omega)) (f2 349 (by omega) (by omega)))).trans
      (readU16_congr (f1 348 (by omega) (by omega)) (f1 349 (by omega) (by omega)))
  have g5 : fieldOk e4 348 bd := by
    unfold fieldOk at h15C ⊢; rw [l4d, t5]; exact h15C
  obtain ⟨e5, r5, l5, f5, s5, w5⟩ := updLenField_spec e4 348 bd g5
  have l5d : e5.length = d.length := l5.trans l4d
  have t6 : readU16 e5 350 = readU16 d 350 :=
    ((((readU16_congr (f5 350 (by omega) (by omega)) (f5 351 (by omega) (by omega))).trans
      (readU16_congr (f4 350 (by omega) (by omega)) (f4 351 (by omega) (by omega)))).trans
      (readU16_congr (f3 350 (by omega) (by omega)) (f3 351 (by omega) (by omega)))).trans
      (readU16_congr (f2 350 (by omega) (by omega)) (f2 351 (by omega) (by omega)))).trans
      (readU16_congr (f1 350 (by omega) (by omega)) (f1 351 (by omega) (by omega)))
  have g6 : fieldOk e5 350 (bd.fdiv 2) := by
    unfold fieldOk at h15E ⊢; rw [l5d, t6]; exact h15E
  obtain ⟨e6, r6, l6, f6, s6, w6⟩ := updLenField_spec e5 350 (bd.fdiv 2) g6
  have l6d : e6.length = d.length := l6.trans l5d
  refine ⟨e6, ?_, l6d, ?_, ?_, ?_, ?_, ?_, ?_, ?_⟩
  · unfold _update_length_fields
    simp only [r1, r2, r3, r4, r5, r6]
  · intro j hj
    simp only [fieldBytes, List.mem_cons, List.not_mem_nil, or_false] at hj
    push_neg at hj
    obtain ⟨n1, n2, n3, n4, n5, n6, n7, n8, n9, n10, n11, n12⟩ := hj
    rw [f6 j n11 (by omega), f5 j n9 (by omega), f4 j n7 (by omega),
      f3 j n5 (by omega), f2 j n3 (by omega), f1 j n1 (by omega)]
  · refine ⟨?_, ?_⟩ <;> intro hg
    · have c : readU16 e6 32 = readU16 e1 32 := by
        unfold readU16
        rw [f6 32 (by omega) (by omega), f6 33 (by omega) (by omega),
          f5 32 (by omega) (by omega), f5 33 (by omega) (by omega),
          f4 32 (by omega) (by omega), f4 33 (by omega) (by omega),
          f3 32 (by omega) (by omega), f3 33 (by omega) (by omega),
          f2 32 (by omega) (by omega), f2 33 (by omega) (by omega)]
      rw [c]; exact w1 hg
    · have c : readU16 e6 32 = readU16 e1 32 := by
        unfold readU16
        rw [f6 32 (by omega) (by omega), f6 33 (by omega) (by omega),
          f5 32 (by omega) (by omega), f5 33 (by omega) (by omega),
          f4 32 (by omega) (by omega), f4 33 (by omega) (by omega),
          f3 32 (by omega) (by omega), f3 33 (by omega) (by omega),
          f2 32 (by omega) (by omega), f2 33 (by omega) (by omega)]
      rw [c, s1 hg]
  · refine ⟨?_, ?_⟩ <;> intro hg
    · have c : readU16 e6 64 = readU16 e2 64 := by
        unfold readU16
        rw [f6 64 (by omega) (by omega), f6 65 (by omega) (by omega),
          f5 64 (by omega) (by omega), f5 65 (by omega) (by omega),
          f4 64 (by omega) (by omega), f4 65 (by omega) (by omega),
          f3 64 (by omega) (by omega), f3 65 (by omega) (by omega)]
      have hg1 : 64 < e1.length - 2 := by rw [l1]; exact hg
      have hw := w2 hg1
      rw [t2] at hw
      rw [c]; exact hw
    · have c : readU16 e6 64 = readU16 e2 64 := by
        unfold readU16
        rw [f6 64 (by omega) (by omega), f6 65 (by omega) (by omega),
          f5 64 (by omega) (by omega), f5 65 (by omega) (by omega),
          f4 64 (by omega) (by omega), f4 65 (by omega) (by omega),
          f3 64 (by omega) (by omega), f3 65 (by omega) (by omega)]
      have hg1 : ¬ 64 < e1.length - 2 := by rw [l1]; exact hg
      rw [c, s2 hg1, t2]
  · refine ⟨?_, ?_⟩ <;> intro hg
    · have c : readU16 e6 156 = readU16 e3 156 := by
        unfold readU16
        rw [f6 156 (by omega) (by omega), f6 157 (by omega) (by omega),
          f5 156 (by omega) (by omega), f5 157 (by omega) (by omega),
          f4 156 (by omega) (by omega), f4 157 (by omega) (by omega)]
      have hg1 : 156 < e2.length - 2 := by rw [l2d]; exact hg
      have hw := w3 hg1
      rw [t3] at hw
      rw [c]; exact hw
    · have c : readU16 e6 156 = readU16 e3 156 := by
        unfold readU16
        rw [f6 156 (by omega) (by omega), f6 157 (by omega) (by omega),
          f5 156 (by omega) (by omega), f5 157 (by omega) (by omega),
          f4 156 (by omega) (by omega), f4 157 (by omega) (by omega)]
      have hg1 : ¬ 156 < e2.length - 2 := by rw [l2d]; exact hg
      rw [c, s3 hg1, t3]
  · refine ⟨?_, ?_⟩ <;> intro hg
    · have c : readU16 e6 192 = readU16 e4 192 := by
        unfold readU16
        rw [f6 192 (by omega) (by omega), f6 193 (by omega) (by omega),
          f5 192 (by omega) (by omega), f5 193 (by omega) (by omega)]
      have hg1 : 192 < e3.length - 2 := by rw [l3d]; exact hg
      have hw := w4 hg1
      rw [t4] at hw
      rw [c]; exact hw
    · have c : readU16 e6 192 = readU16 e4 192 := by
        unfold readU16
        rw [f6 192 (by omega) (by omega), f6 193 (by omega) (by omega),
          f5 192 (by omega) (by omega), f5 193 (by omega) (by omega)]
      have hg1 : ¬ 192 < e3.length - 2 := by rw [l3d]; exact hg
      rw [c, s4 hg1, t4]
  · refine ⟨?_, ?_⟩ <;> intro hg
    · have c : readU16 e6 348 = readU16 e5 348 := by
        unfold readU16
        rw [f6 348 (by omega) (by omega), f6 349 (by omega) (by omega)]
      have hg1 : 348 < e4.length - 2 := by rw [l4d]; exact hg
      have hw := w5 hg1
      rw [t5] at hw
      rw [c]; exact hw
    · have c : readU16 e6 348 = readU16 e5 348 := by
        unfold readU16
        rw [f6 348 (by omega) (by omega), f6 349 (by omega) (by omega)]
      have hg1 : ¬ 348 < e4.length - 2 := by rw [l4d]; exact hg
      rw [c, s5 hg1, t5]
  · refine ⟨?_, ?_⟩ <;> intro hg
    · have hg1 : 350 < e5.length - 2 := by rw [l5d]; exact hg
      have hw := w6 hg1
      rw [t6] at hw
      exact hw
    · have hg1 : ¬ 350 < e5.length - 2 := by rw [l5d]; exact hg
      rw [s6 hg1, t6]

theorem pyOff_natCast (len : Nat) (i : Nat) : pyOff len (i : Int) = (i : Int) := by
  unfold pyOff
  rw [if_neg (by omega)]

theorem unpack_from_pos (d : Buffer) (i : Nat) (hb : i + 2 ≤ d.length) :
    unpack_from? d (i : Int) = .ok (readU16 d i) := by
  unfold unpack_from?
  rw [pyOff_natCast]
  rw [if_pos (by constructor <;> omega)]
  simp

theorem unpack_from_error {d : Buffer} {i : Int} {e : BumpError}
    (h : unpack_from? d i = .error e) : e = .outOfRange := by
  unfold unpack_from? at h
  split at h
  · cases h
  · cases h; rfl

theorem unpack_u32_pos (d : Buffer) (i : Nat) (hb : i + 4 ≤ d.length) :
    unpack_u32_from? d (i : Int) = .ok (readU16 d i + 65536 * readU16 d (i + 2)) := by
  unfold unpack_u32_from?
  rw [pyOff_natCast]
  rw [if_pos (by constructor <;> omega)]
  simp

/-- C2: the resizing patch's length-field updates use the correct unit per
field — the two resource DataSize fields (0x20, 0x40), the StringFileInfo
length (0x9C) and the StringTable length (0xC0) are incremented by the aligned
byte delta, the FileVersion entry's own length field (0x15C) by the raw byte
delta, and its value-length field (0x15E) by the character count
byte_diff // 2 — whenever the buffer reaches past the last field and no
16-bit field overflows. -/
theorem C2_length_field_units (d : Buffer) (bd ad fv : Int)
    (hlen : 0x161 ≤ d.length)
    (h20 : 0 ≤ (readU16 d 0x20 : Int) + ad ∧ (readU16 d 0x20 : Int) + ad ≤ 65535)
    (h40 : 0 ≤ (readU16 d 0x40 : Int) + ad ∧ (readU16 d 0x40 : Int) + ad ≤ 65535)
    (h9C : 0 ≤ (readU16 d 0x9C : Int) + ad ∧ (readU16 d 0x9C : Int) + ad ≤ 65535)
    (hC0 : 0 ≤ (readU16 d 0xC0 : Int) + ad ∧ (readU16 d 0xC0 : Int) + ad ≤ 65535)
    (h15C : 0 ≤ (readU16 d 0x15C : Int) + bd ∧ (readU16 d 0x15C : Int) + bd ≤ 65535)
    (h15E : 0 ≤ (readU16 d 0x15E : Int) + bd.fdiv 2 ∧
      (readU16 d 0x15E : Int) + bd.fdiv 2 ≤ 65535) :
    ∃ d', _update_length_fields d bd ad fv = .ok d' ∧
      (readU16 d' 0x20 : Int) = (readU16 d 0x20 : Int) + ad ∧
      (readU16 d' 0x40 : Int) = (readU16 d 0x40 : Int) + ad ∧
      (readU16 d' 0x9C : Int) = (readU16 d 0x9C : Int) + ad ∧
      (readU16 d' 0xC0 : Int) = (readU16 d 0xC0 : Int) + ad ∧
      (readU16 d' 0x15C : Int) = (readU16 d 0x15C : Int) + bd ∧
      (readU16 d' 0x15E : Int) = (readU16 d 0x15E : Int) + bd.fdiv 2 := by
  obtain ⟨d', hr, hl, hf, p20, p40, p9C, pC0, p15C, p15E⟩ :=
    update_length_fields_spec d bd ad fv (fun _ => h20) (fun _ => h40) (fun _ => h9C)
      (fun _ => hC0) (fun _ => h15C) (fun _ => h15E)
  exact ⟨d', hr, p20.1 (by omega), p40.1 (by omega), p9C.1 (by omega),
    pC0.1 (by omega), p15C.1 (by omega), p15E.1 (by omega)⟩

/-- Witness for C2 at a concrete 0x168-byte all-zero buffer with
byteDelta = 2 and alignedDelta = 4. -/
theorem C2_length_field_units_witness :
    ∃ d', _update_length_fields (zeros 0x168) 2 4 0 = .ok d' ∧
      (readU16 d' 0x20 : Int) = (readU16 (zeros 0x168) 0x20 : Int) + 4 ∧
      (readU16 d' 0x40 : Int) = (readU16 (zeros 0x168) 0x40 : Int) + 4 ∧
      (readU16 d' 0x9C : Int) = (readU16 (zeros 0x168) 0x9C : Int) + 4 ∧
      (readU16 d' 0xC0 : Int) = (readU16 (zeros 0x168) 0xC0 : Int) + 4 ∧
      (readU16 d' 0x15C : Int) = (readU16 (zeros 0x168) 0x15C : Int) + 2 ∧
      (readU16 d' 0x15E : Int) = (readU16 (zeros 0x168) 0x15E : Int) + Int.fdiv 2 2 :=
  C2_length_field_units (zeros 0x168) 2 4 0 (by decide) (by decide) (by decide)
    (by decide) (by decide) (by decide) (by decide)

/-- C10: _update_length_fields writes at the fixed absolute offsets 0x20,
0x40, 0x9C, 0xC0, 0x15C, 0x15E regardless of where the signature or marker
were found (its fv_entry_offset argument is ignored), and any of these offsets
at or beyond length-2 is silently skipped: the call still succeeds and leaves
the field bytes untouched, so on buffers shorter than 0x160 bytes the
FileVersion value-length field at 0x15E (among others) is never updated. -/
theorem C10_fixed_offsets_skip (d : Buffer) (bd ad fv fv' : Int)
    (hshort : d.length < 0x160)
    (h20 : fieldOk d 0x20 ad) (h40 : fieldOk d 0x40 ad) (h9C : fieldOk d 0x9C ad)
    (hC0 : fieldOk d 0xC0 ad) (h15C : fieldOk d 0x15C bd) :
    _update_length_fields d bd ad fv = _update_length_fields d bd ad fv' ∧
    ∃ d', _update_length_fields d bd ad fv = .ok d' ∧ d'.length = d.length ∧
      readU16 d' 0x15E = readU16 d 0x15E ∧
      (∀ o ∈ fieldOffsets, ¬ o < d.length - 2 → readU16 d' o = readU16 d o) := by
  have h15E : fieldOk d 0x15E (bd.fdiv 2) := fun hc => absurd hc (by omega)
  obtain ⟨d', hr, hl, hf, p20, p40, p9C, pC0, p15C, p15E⟩ :=
    update_length_fields_spec d bd ad fv h20 h40 h9C hC0 h15C h15E
  refine ⟨rfl, d', hr, hl, p15E.2 (by omega), ?_⟩
  intro o ho hno
  simp only [fieldOffsets, List.mem_cons, List.not_mem_nil, or_false] at ho
  rcases ho with rfl | rfl | rfl | rfl | rfl | rfl
  · exact p20.2 hno
  · exact p40.2 hno
  · exact p9C.2 hno
  · exact pC0.2 hno
  · exact p15C.2 hno
  · exact p15E.2 hno

/-- Witness for C10 at a concrete 100-byte zero buffer and two different
fv_entry_offset arguments. -/
theorem C10_fixed_offsets_skip_witness :
    _update_length_fields (zeros 100) 2 4 0 = _update_length_fields (zeros 100) 2 4 5 ∧
    ∃ d', _update_length_fields (zeros 100) 2 4 0 = .ok d' ∧ d'.length = (zeros 100).length ∧
      readU16 d' 0x15E = readU16 (zeros 100) 0x15E ∧
      (∀ o ∈ fieldOffsets, ¬ o < (zeros 100).length - 2 → readU16 d' o = readU16 (zeros 100) o) :=
  C10_fixed_offsets_skip (zeros 100) 2 4 0 5 (by decide) (fun _ => by decide)
    (fun _ => by decide) (fun _ => by decide) (fun _ => by decide) (fun _ => by decide)

/-- C9: the derived new version shares major, minor and release (the revision
component) with the current one; only build is replaced, by the requested
target (or auto-incremented when none is given). -/
theorem C9_only_build_changes (cur : VersionInfo) (nb : Option Nat) :
    (calculate_new_version cur nb).major = cur.major ∧
    (calculate_new_version cur nb).minor = cur.minor ∧
    (calculate_new_version cur nb).release = cur.release ∧
    (calculate_new_version cur nb).build = nb.getD (cur.build + 1) :=
  ⟨rfl, rfl, rfl, rfl⟩

/-- C8: for every target build beyond the 16-bit range, writing the binary
build half-word fails with the struct.error modelled as OutOfRange. -/
theorem C8_build_out_of_range (d : Buffer) (fvls b : Nat) (h : 65535 < b) :
    update_binary_version d fvls b = .error .outOfRange := by
  unfold update_binary_version
  cases hu : unpack_from? d ((fvls : Int) + 2) with
  | error e =>
    have he : e = .outOfRange := unpack_from_error hu
    simp only [hu, he]
  | ok v =>
    simp only [hu]
    unfold pack_into?
    rw [if_neg (by omega)]

/-- Witness for C8: build 70000 on a 20-byte zero buffer. -/
theorem C8_build_out_of_range_witness :
    update_binary_version (zeros 20) 12 70000 = .error .outOfRange :=
  C8_build_out_of_range (zeros 20) 12 70000 (by decide)

/-- C7 counterexample: a buffer consisting of exactly the 4 signature bytes
contains the signature and lacks the marker, yet analysis fails with the
struct.error of the truncated fixed-field read (modelled OutOfRange), not with
the distinct MarkerNotFound error. -/
theorem C7_error_counterexample :
    findSub VS_FFI_SIGNATURE VS_FFI_SIGNATURE = some 0 ∧
    findSub (utf16le fileVersionCodes) VS_FFI_SIGNATURE = none ∧
    analyze VS_FFI_SIGNATURE = .error .outOfRange ∧
    analyze VS_FFI_SIGNATURE ≠ .error .markerNotFound := by
  refine ⟨by decide, by decide, by decide, by decide⟩

/-- C7 (amended): a buffer without the signature makes the whole session fail
with SignatureNotFound; a buffer that contains the signature with its fixed
version fields in bounds but lacks the UTF-16 marker makes it fail with the
distinct MarkerNotFound; in both cases bump returns an error, so the save step
is never reached and no buffer is produced. -/
theorem C7_distinct_errors_amended (d1 d2 : Buffer) (nb : Option Nat) (p : Nat)
    (h1 : findSub VS_FFI_SIGNATURE d1 = none)
    (h2 : findSub VS_FFI_SIGNATURE d2 = some p)
    (h3 : p + 16 ≤ d2.length)
    (h4 : findSub (utf16le fileVersionCodes) d2 = none) :
    bump d1 nb = .error .signatureNotFound ∧ bump d2 nb = .error .markerNotFound := by
  constructor
  · unfold bump analyze find_binary_version
    simp only [h1]
  · have e8 : unpack_u32_from? d2 ((p : Int) + 8) =
        .ok (readU16 d2 (p + 8) + 65536 * readU16 d2 (p + 8 + 2)) := by
      have := unpack_u32_pos d2 (p + 8) (by omega)
      rw [show ((p + 8 : Nat) : Int) = (p : Int) + 8 by push_cast; ring] at this
      exact this
    have e12 : unpack_u32_from? d2 ((p : Int) + 12) =
        .ok (readU16 d2 (p + 12) + 65536 * readU16 d2 (p + 12 + 2)) := by
      have := unpack_u32_pos d2 (p + 12) (by omega)
      rw [show ((p + 12 : Nat) : Int) = (p : Int) + 12 by push_cast; ring] at this
      exact this
    unfold bump analyze find_binary_version find_string_version
    simp only [h2, h4, e8, e12]

/-- Witness for C7 at two concrete buffers: an empty buffer and the signature
followed by twelve zero bytes. -/
theorem C7_distinct_errors_amended_witness :
    bump [] (some 5) = .error .signatureNotFound ∧
    bump (VS_FFI_SIGNATURE ++ zeros 12) (some 5) = .error .markerNotFound :=
  C7_distinct_errors_amended [] (VS_FFI_SIGNATURE ++ zeros 12) (some 5) 0
    (by decide) (by decide) (by decide) (by decide)

/-- C1 counterexample: on a buffer whose full version string "1.1.9.0" is
embedded three times, the resizing patch 9→10 produces 110 bytes from 104,
while input length + alignedDelta = 104 + 4 = 108: the back-to-front sweep
splices an extra occurrence and adds byteDelta more bytes. -/
theorem C1_length_counterexample :
    find_string_version c1buf = .ok (48, v190) ∧
    (natDigits v1_10.build).length ≠ (natDigits v190.build).length ∧
    _update_string_version_diff_length c1buf 48 v190 v1_10 =
      .ok (none, okBuf (_update_string_version_diff_length c1buf 48 v190 v1_10)) ∧
    (okBuf (_update_string_version_diff_length c1buf 48 v190 v1_10)).length = 110 ∧
    c1buf.length = 104 ∧ alignUp4 (byteDelta v190 v1_10) = 4 ∧ (110 : Nat) ≠ 104 + 4 :=
  ⟨by decide, by decide, by decide, by decide, by decide, by decide, by decide⟩

/-- C3 (code bug): the grow-then-shrink round trip 9→10→9 does not restore the
original buffer.  On a realistically laid out 396-byte image the grow run
inserts alignedDelta = 4 bytes, but the shrink run computes
alignedDelta = roundUpToMultipleOf4(-2) = 0 and inserts 2 more padding bytes
instead of removing 4, so the final buffer has 400 bytes and the outer length
fields stay inflated by 4 (0x104 instead of 0x100 at offset 0x20). -/
theorem C3_grow_shrink_not_identity :
    (bump resBufC3 (some 10)).bind (fun x => bump x (some 9)) =
      .ok (okOr ((bump resBufC3 (some 10)).bind (fun x => bump x (some 9)))) ∧
    (okOr ((bump resBufC3 (some 10)).bind (fun x => bump x (some 9)))).length = 0x190 ∧
    resBufC3.length = 0x18C ∧
    readU16 (okOr ((bump resBufC3 (some 10)).bind (fun x => bump x (some 9)))) 0x20 = 0x104 ∧
    readU16 resBufC3 0x20 = 0x100 ∧
    okOr ((bump resBufC3 (some 10)).bind (fun x => bump x (some 9))) ≠ resBufC3 :=
  ⟨by decide, by decide, by decide, by decide, by decide, by decide⟩

/-- C4 (code bug): on a buffer with a second embedded copy of the full version
string, the resizing patch 9→10 leaves that second occurrence reading the old
"1.1.9.0": the sweep skips the first element of its collected position list,
but the primary occurrence was already rewritten and never appears in that
list, so the skip drops a genuine secondary occurrence. -/
theorem C4_second_occurrence_skipped :
    analyze c4buf = .ok (12, 48, v190) ∧
    ((okOr (bump c4buf (some 10))).drop 76).take 14 = utf16le (versionCodes v190) ∧
    utf16le (versionCodes v190) ≠ utf16le (versionCodes v1_10) ∧
    findSubFrom (utf16le (versionCodes v190)) (okOr (bump c4buf (some 10))) 0 = some 76 :=
  ⟨by decide, by decide, by decide, by decide⟩

/-- C5 counterexample: with the unrelated text "2.9.3" embedded after the
version entry, the same-width patch 9→8 also rewrites the digit inside that
text (byte 68 changes from '9' to '8'), a byte outside both the binary build
half-word [14,16) and the build digit run [56,58) of the version text. -/
theorem C5_frame_counterexample :
    analyze c5buf = .ok (12, 48, v190) ∧
    (natDigits 8).length = (natDigits v190.build).length ∧
    findBuildOffset c5buf 48 0 = some 56 ∧
    bump c5buf (some 8) = .ok (okOr (bump c5buf (some 8))) ∧
    (okOr (bump c5buf (some 8))).getD 68 0 = 56 ∧ c5buf.getD 68 0 = 57 ∧
    ¬ (12 + 2 ≤ 68 ∧ 68 < 12 + 4) ∧ ¬ (56 ≤ 68 ∧ 68 < 56 + 2) :=
  ⟨by decide, by decide, by decide, by decide, by decide, by decide, by decide, by decide⟩

/-- C6 (code bug): on a buffer whose sole "FileVersion" marker overlaps the
binary build half-word, analysis succeeds, the binary patch destroys the
marker, the string patch then fails with MarkerNotFound — and bump still
reaches the save step with the partially patched buffer (binary build 10,
text still "1.1.9.0"), because the boolean result of update_string_version is
discarded. -/
theorem C6_partial_save_on_marker_loss :
    analyze c6buf = .ok (12, 28, v190) ∧
    update_string_version (writeU16 c6buf 14 10) 28 v190 v1_10 =
      .ok (some .markerNotFound, writeU16 c6buf 14 10) ∧
    find_string_version (writeU16 c6buf 14 10) = .error .markerNotFound ∧
    bump c6buf (some 10) = .ok (writeU16 c6buf 14 10) ∧
    writeU16 c6buf 14 10 ≠ c6buf ∧
    readU16 (writeU16 c6buf 14 10) 14 = 10 ∧
    ((writeU16 c6buf 14 10).drop 28).take 14 = utf16le (versionCodes v190) :=
  ⟨by decide, by decide, by decide, by decide, by decide, by decide, by decide⟩

/-! ### Scan bounds and sweep lemmas -/

theorem findBuildOffsetAux_le (d : Buffer) :
    ∀ fuel i dc bso, findBuildOffsetAux d fuel i dc = some bso → bso ≤ d.length := by
  intro fuel
  induction fuel with
  | zero => intro i dc bso h; cases h
  | succ n ih =>
    intro i dc bso h
    unfold findBuildOffsetAux at h
    split at h
    · split at h
      · cases h
      · split at h
        · split at h
          · cases h; omega
          · exact ih _ _ _ h
        · exact ih _ _ _ h
    · cases h

theorem findBuildOffset_le {d : Buffer} {i dc bso : Nat}
    (h : findBuildOffset d i dc = some bso) : bso ≤ d.length :=
  findBuildOffsetAux_le d _ i dc bso h

theorem findBuildEndAux_ge (d : Buffer) :
    ∀ fuel i, i ≤ findBuildEndAux d fuel i := by
  intro fuel
  induction fuel with
  | zero => intro i; exact Nat.le_refl i
  | succ n ih =>
    intro i
    unfold findBuildEndAux
    split
    · split
      · omega
      · have := ih (i + 2); omega
    · omega

theorem findBuildEndAux_le (d : Buffer) :
    ∀ fuel i, i ≤ d.length → findBuildEndAux d fuel i ≤ d.length := by
  intro fuel
  induction fuel with
  | zero => intro i h; exact h
  | succ n ih =>
    intro i h
    unfold findBuildEndAux
    split
    · split
      · exact h
      · exact ih (i + 2) (by omega)
    · exact h

theorem findBuildEnd_ge (d : Buffer) (i : Nat) : i ≤ findBuildEnd d i :=
  findBuildEndAux_ge d _ i

theorem findBuildEnd_le (d : Buffer) (i : Nat) (h : i ≤ d.length) :
    findBuildEnd d i ≤ d.length :=
  findBuildEndAux_le d _ i h

theorem drop_one_eq_nil {ps : List Nat} (h : ps.length ≤ 1) : ps.drop 1 = [] := by
  cases ps with
  | nil => rfl
  | cons a t =>
    cases t with
    | nil => rfl
    | cons b t2 => simp at h

theorem sweep_identity (d : Buffer) (cur nv : VersionInfo)
    (h : (findAllPositions d (utf16le (versionCodes cur))).length ≤ 1) :
    _update_all_version_strings_with_length_change d cur nv = d := by
  simp only [_update_all_version_strings_with_length_change]
  rw [drop_one_eq_nil h]
  rfl

/-- C1 (amended): on a resizing patch whose build text span equals the old
build's decimal digit width and where the full old version string does not
occur a second time after the primary rewrite (so the global sweep splices
nothing), the output buffer length equals the input length plus the
4-byte-aligned delta.  The scan hypotheses name the marker position, the entry
header reads, the build span, and the successful length-field update. -/
theorem C1_length_amended (d : Buffer) (fvs fvKeyPos wL w2 bso : Nat)
    (cur nv : VersionInfo) (d3 : Buffer)
    (hk : findSub (utf16le fileVersionCodes) d = some fvKeyPos)
    (hw : unpack_from? d ((fvKeyPos : Int) - 6) = .ok wL)
    (hw2 : unpack_from? d ((fvKeyPos : Int) - 6 + 2) = .ok w2)
    (hb : findBuildOffset d fvs 0 = some bso)
    (hspan : findBuildEnd d bso = bso + 2 * (natDigits cur.build).length)
    (hf : _update_length_fields
        (usvdlPad (usvdlSplice d bso (findBuildEnd d bso) (natDigits nv.build))
          ((fvKeyPos : Int) - 6 + (wL : Int)) (byteDelta cur nv) (alignUp4 (byteDelta cur nv)))
        (byteDelta cur nv) (alignUp4 (byteDelta cur nv)) ((fvKeyPos : Int) - 6) = .ok d3)
    (hsweep : (findAllPositions d3 (utf16le (versionCodes cur))).length ≤ 1) :
    _update_string_version_diff_length d fvs cur nv = .ok (none, d3) ∧
    (d3.length : Int) = d.length + alignUp4 (byteDelta cur nv) := by
  constructor
  · unfold _update_string_version_diff_length
    simp only [hk, hw, hw2, hb, hf]
    rw [sweep_identity d3 cur nv hsweep]
  · have hbso : bso ≤ d.length := findBuildOffset_le hb
    have hbeo_le : findBuildEnd d bso ≤ d.length := findBuildEnd_le d bso hbso
    have hage := alignUp4_ge (byteDelta cur nv)
    have hl1 := length_usvdlSplice d bso (findBuildEnd d bso) (natDigits nv.build) hbso
    have hl2 : ((usvdlPad (usvdlSplice d bso (findBuildEnd d bso) (natDigits nv.build))
        ((fvKeyPos : Int) - 6 + (wL : Int)) (byteDelta cur nv)
        (alignUp4 (byteDelta cur nv))).length : Int)
        = ((usvdlSplice d bso (findBuildEnd d bso) (natDigits nv.build)).length : Int)
          + (alignUp4 (byteDelta cur nv) - byteDelta cur nv) := by
      unfold usvdlPad
      split
      · rw [length_pyInsert]
        push_cast [List.length_replicate]
        rw [Int.toNat_of_nonneg (by omega)]
      · omega
    have hlen3 : d3.length = (usvdlPad (usvdlSplice d bso (findBuildEnd d bso)
        (natDigits nv.build)) ((fvKeyPos : Int) - 6 + (wL : Int)) (byteDelta cur nv)
        (alignUp4 (byteDelta cur nv))).length := update_length_fields_length hf
    have hBdef : byteDelta cur nv = 2 * ((natDigits nv.build).length : Int)
        - 2 * ((natDigits cur.build).length : Int) := by
      unfold byteDelta; ring
    rw [hspan] at hl1 hl2 hlen3 hbeo_le
    omega

/-- Witness for C1 (amended) at the concrete single-occurrence buffer
smallBuf patched 9→10: the output has 68 = 64 + 4 bytes. -/
theorem C1_length_amended_witness :
    _update_string_version_diff_length smallBuf 48 v190 v1_10 = .ok (none, c1witnessD3) ∧
    ((c1witnessD3.length : Int) = smallBuf.length + alignUp4 (byteDelta v190 v1_10)) :=
  C1_length_amended smallBuf 48 22 48 8 56 v190 v1_10 c1witnessD3
    (by decide) (by decide) (by decide) (by decide) (by decide) (by decide) (by decide)

theorem update_binary_ok {d : Buffer} {fvls b : Nat} {d1 : Buffer}
    (h : update_binary_version d fvls b = .ok d1) :
    d1 = writeU16 d (fvls + 2) b ∧ b ≤ 65535 ∧ fvls + 4 ≤ d.length := by
  unfold update_binary_version at h
  cases hu : unpack_from? d ((fvls : Int) + 2) with
  | error e => simp only [hu] at h; exact Except.noConfusion h
  | ok v =>
    simp only [hu] at h
    unfold pack_into? at h
    split at h
    · cases h
      next hcond =>
        refine ⟨?_, ?_, ?_⟩
        · norm_num
        · exact_mod_cast hcond.2.1
        · omega
    · cases h

theorem writeChars_ok :
    ∀ (cs : List Nat) (d : Buffer) (off : Nat) (d' : Buffer),
      writeChars? d off cs = .ok d' →
      d'.length = d.length ∧
        ∀ j, (j < off ∨ off + 2 * cs.length ≤ j) → d'.getD j 0 = d.getD j 0 := by
  intro cs
  induction cs with
  | nil =>
    intro d off d' h
    cases h
    exact ⟨rfl, fun _ _ => rfl⟩
  | cons c t ih =>
    intro d off d' h
    unfold writeChars? at h
    cases hp : pack_into? d off (c : Int) with
    | error e => simp only [hp] at h; exact Except.noConfusion h
    | ok d1 =>
      simp only [hp] at h
      obtain ⟨hl, hfr⟩ := ih d1 (off + 2) d' h
      unfold pack_into? at hp
      split at hp
      · cases hp
        constructor
        · rw [hl, length_writeU16]
        · intro j hj
          simp only [List.length_cons] at hj
          rw [hfr j (by omega)]
          exact getD_writeU16_ne _ _ _ _ (by omega) (by omega)
      · cases hp

theorem same_sweep_identity (d : Buffer) (oldB newB : List Nat)
    (h : findSubFrom (utf16le (46 :: (oldB ++ [46]))) d 0 = none) :
    _update_all_version_strings d oldB newB = d := by
  unfold _update_all_version_strings
  simp only [replaceLoop, h]

/-- C5 (amended): on a same-digit-width patch in which the delimited UTF-16
pattern "." ++ oldBuild ++ "." has no occurrence anywhere in the buffer once
the primary build run has been rewritten (hypothesis hsw, so the global
substitution of lines 625-646 finds nothing — neither secondary version
strings nor, e.g., an equal minor component inside the primary text), the
session output has the same length as the input and agrees with it on every
byte outside the binary build half-word [fvls+2, fvls+4) and the build digit
run [bso, bso + 2·digits) of the version text. -/
theorem C5_frame_amended (d : Buffer) (fvls fvs bso nb : Nat) (cur : VersionInfo)
    (d1 d2 : Buffer)
    (hana : analyze d = .ok (fvls, fvs, cur))
    (hdig : (natDigits nb).length = (natDigits cur.build).length)
    (hbin : update_binary_version d fvls nb = .ok d1)
    (hb : findBuildOffset d1 fvs 0 = some bso)
    (hwr : writeChars? d1 bso (natDigits nb) = .ok d2)
    (hsw : findSubFrom (utf16le (46 :: (natDigits cur.build ++ [46]))) d2 0 = none) :
    bump d (some nb) = .ok d2 ∧ d2.length = d.length ∧
    ∀ j, j ≠ fvls + 2 → j ≠ fvls + 3 →
      (j < bso ∨ bso + 2 * (natDigits nb).length ≤ j) → d2.getD j 0 = d.getD j 0 := by
  obtain ⟨hd1, hble, hbnd⟩ := update_binary_ok hbin
  obtain ⟨hl2, hf2⟩ := writeChars_ok (natDigits nb) d1 bso d2 hwr
  have hnv : calculate_new_version cur (some nb) = { cur with build := nb } := rfl
  refine ⟨?_, ?_, ?_⟩
  · unfold bump
    simp only [hana, hnv]
    simp only [show ({ cur with build := nb } : VersionInfo).build = nb from rfl, hbin]
    unfold update_string_version
    simp only [show ({ cur with build := nb } : VersionInfo).build = nb from rfl]
    rw [if_pos hdig]
    unfold _update_string_version_same_length
    simp only [hb, hwr]
    rw [same_sweep_identity d2 (natDigits cur.build) (natDigits nb) hsw]
  · rw [hl2, hd1, length_writeU16]
  · intro j hj1 hj2 hj3
    rw [hf2 j (by omega), hd1]
    exact getD_writeU16_ne _ _ _ _ hj1 (by omega)

/-- Witness for C5 (amended) at smallBuf patched 9→8. -/
theorem C5_frame_amended_witness :
    bump smallBuf (some 8) = .ok (okOr (writeChars? (okOr (update_binary_version smallBuf 12 8)) 56 (natDigits 8))) ∧
    (okOr (writeChars? (okOr (update_binary_version smallBuf 12 8)) 56 (natDigits 8))).length = smallBuf.length ∧
    ∀ j, j ≠ 12 + 2 → j ≠ 12 + 3 →
      (j < 56 ∨ 56 + 2 * (natDigits 8).length ≤ j) →
      (okOr (writeChars? (okOr (update_binary_version smallBuf 12 8)) 56 (natDigits 8))).getD j 0 =
        smallBuf.getD j 0 :=
  C5_frame_amended smallBuf 12 48 56 8 v190
    (okOr (update_binary_version smallBuf 12 8))
    (okOr (writeChars? (okOr (update_binary_version smallBuf 12 8)) 56 (natDigits 8)))
    (by decide) (by decide) (by decide) (by decide) (by decide) (by decide)
